import Mathlib

/-!
Shallow embedding of the BacBo prediction engine (src/Bo.py, class
BacBoPredictor) and verification of its natural-language specification.

Conventions of the embedding:
- Python strings of the outcome domain become the inductive type Outcome;
  the raw string interface of add_result is kept (validation included).
- Python ints/floats used for confidences, weights and ratios become ℚ
  (exact rational arithmetic; the float/rational gap is noted where a
  boundary could matter).
- The per-instance mutable state of the class becomes the structure
  BacBoPredictor passed and returned explicitly.  The pair of fields
  self.last_prediction / st.session_state.last_prediction always holds the
  same value in the source, so it is modelled as the single field
  last_prediction.
- Fallible operations (the raise in add_result, the deque slicing in
  get_stats, max() on an empty sequence) are modelled with Except.
-/

/-- The three outcome tokens stored in game_history
('PLAYER', 'BANKER', 'TIE'). -/
inductive Outcome
  | PLAYER
  | BANKER
  | TIE
deriving DecidableEq, Repr

/-- Canonical string of an outcome, as stored by the Python code. -/
def outcomeStr : Outcome → String
  | Outcome.PLAYER => "PLAYER"
  | Outcome.BANKER => "BANKER"
  | Outcome.TIE => "TIE"

instance : ToString Outcome := ⟨outcomeStr⟩

/-- A detector result / final prediction: the dict
\x7b'prediction': ..., 'confidence': ..., 'reason': ...\x7d. -/
structure Prediction where
  prediction : Option Outcome
  confidence : ℚ
  reason : String
deriving DecidableEq, Repr

/-- One weighted detector vote: the dict \x7b'method': ..., 'weight': ...\x7d. -/
structure WeightedVote where
  method : Prediction
  weight : ℚ
deriving DecidableEq, Repr

/-- One accuracy record of the 20-slot ring buffer:
\x7b'predicted': ..., 'actual': ..., 'confidence': ...\x7d. -/
structure AccRecord where
  predicted : Option Outcome
  actual : Outcome
  confidence : ℚ
deriving DecidableEq, Repr

/-- The dict self.prediction_stats = \x7b'wins', 'total', 'win_rate'\x7d. -/
structure PredictionStats where
  wins : Nat
  total : Nat
  win_rate : ℚ
deriving DecidableEq, Repr

/-- The mutable state of a BacBoPredictor instance. -/
structure BacBoPredictor where
  game_history : List Outcome
  prediction_stats : PredictionStats
  last_predictions : List AccRecord
  last_prediction : Option Prediction
deriving DecidableEq, Repr

/-- State built by BacBoPredictor.__init__ (no last_prediction yet). -/
def initState : BacBoPredictor :=
  { game_history := []
    prediction_stats := { wins := 0, total := 0, win_rate := 0 }
    last_predictions := []
    last_prediction := none }

/-- self.quantum_threshold = 7. -/
def quantum_threshold : Nat := 7

/-- self.fibonacci_sequence = [2, 3, 5, 8, 13, 21, 34]. -/
def fibonacci_sequence : List Nat := [2, 3, 5, 8, 13, 21, 34]

/-- self.pressure_points = [5, 7, 10, 15, 20, 25, 30]. -/
def pressure_points : List Nat := [5, 7, 10, 15, 20, 25, 30]

/-- Python negative-slice suffix: l[-n:] (whole list when n ≥ len(l),
n > 0 throughout the source). -/
def lastN (n : Nat) (l : List α) : List α := l.drop (l.length - n)

/-- Python str.upper(), ASCII-faithful (every character of the source's
valid tokens is ASCII). -/
def pyUpper (s : String) : String := s.map Char.toUpper

/-- The membership test of add_result: ['PLAYER', 'BANKER', 'TIE']. -/
def valid_results : List String := ["PLAYER", "BANKER", "TIE"]

/-- Token recognition of add_result: a canonical uppercase token parses to
its Outcome, anything else is rejected. -/
def parseOutcome (s : String) : Option Outcome :=
  if s = "PLAYER" then some Outcome.PLAYER
  else if s = "BANKER" then some Outcome.BANKER
  else if s = "TIE" then some Outcome.TIE
  else none

/-- Python str(list) of a list of ints, e.g. "[2, 3, 5]". -/
def pyListStr (l : List Nat) : String :=
  "[" ++ String.intercalate ", " (l.map toString) ++ "]"

/-- Comma join of the numeric codes: ','.join(map(str, ...)). -/
def commaJoin (l : List Nat) : String :=
  String.intercalate "," (l.map toString)

/-- Substring containment over char lists (helper for isSubstr). -/
def infixOfList (needle : List Char) : List Char → Bool
  | [] => needle.isEmpty
  | c :: rest => needle.isPrefixOf (c :: rest) || infixOfList needle rest

/-- Python substring test: needle in hay. -/
def isSubstr (needle hay : String) : Bool :=
  infixOfList needle.toList hay.toList

/-- The numeric code of an outcome used by the fibonacci detector:
2 if x == 'PLAYER' else 3 if x == 'BANKER' else 5. -/
def outcomeCode : Outcome → Nat
  | Outcome.PLAYER => 2
  | Outcome.BANKER => 3
  | Outcome.TIE => 5

/-- The len(set(last_5)) == 1 test: nonempty and all elements equal. -/
def all_same : List Outcome → Bool
  | [] => false
  | x :: xs => xs.all (fun y => y == x)

/-- _analyze_quantum_pattern(self): oscillation detector over the last 15
entries, with the 5-streak rule as second branch. -/
def analyze_quantum_pattern (history : List Outcome) : Prediction :=
  let last_15 := lastN 15 history
  let player_count := last_15.count Outcome.PLAYER
  let banker_count := last_15.count Outcome.BANKER
  let diff : Nat := ((player_count : ℤ) - (banker_count : ℤ)).natAbs
  if quantum_threshold ≤ diff then
    { prediction := some (if banker_count < player_count then Outcome.BANKER else Outcome.PLAYER)
      confidence := min 90 (75 + (diff : ℚ) * 2)
      reason := "Oscilação Quântica (Δ=" ++ toString diff ++ ")" }
  else
    let last_5 := lastN 5 last_15
    if all_same last_5 then
      { prediction := some (if last_5.headD Outcome.TIE = Outcome.PLAYER then Outcome.BANKER
                            else Outcome.PLAYER)
        confidence := 89
        reason := "Entrelaçamento Quântico (5x " ++ outcomeStr (last_5.headD Outcome.TIE) ++ ")" }
    else
      { prediction := none, confidence := 0, reason := "" }

/-- The 3-element reference window fibonacci_sequence[i:i+3]. -/
def fibWindow (i : Nat) : List Nat := (fibonacci_sequence.drop i).take 3

/-- The containment test of one loop iteration of
_analyze_dynamic_fibonacci. -/
def windowMatches (numeric : List Nat) (i : Nat) : Bool :=
  isSubstr (commaJoin (fibWindow i)) (commaJoin numeric)

/-- First loop index i (in range(len(fibonacci_sequence) - 2), i.e. 0..4)
whose window matches; none when the loop falls through. -/
def firstFibMatch (numeric : List Nat) : Option Nat :=
  (List.range (fibonacci_sequence.length - 2)).find? (fun i => windowMatches numeric i)

/-- next_val of the source: fibonacci_sequence[i+3] if in range else 3. -/
def fib_next_val (i : Nat) : Nat :=
  if i + 3 < fibonacci_sequence.length then fibonacci_sequence.getD (i + 3) 0 else 3

/-- 'PLAYER' if next_val == 2 else 'BANKER' if next_val == 3 else 'TIE'. -/
def fib_outcome (i : Nat) : Outcome :=
  if fib_next_val i = 2 then Outcome.PLAYER
  else if fib_next_val i = 3 then Outcome.BANKER
  else Outcome.TIE

/-- _analyze_dynamic_fibonacci(self): string-containment scan of the
reference windows over the comma-joined codes of the last 10 entries. -/
def analyze_dynamic_fibonacci (history : List Outcome) : Prediction :=
  let numeric := (lastN 10 history).map outcomeCode
  match firstFibMatch numeric with
  | some i =>
      { prediction := some (fib_outcome i)
        confidence := 83 + (i : ℚ) * 2
        reason := "Fibonacci Dinâmico (" ++ pyListStr (fibWindow i) ++ ")" }
  | none => { prediction := none, confidence := 0, reason := "" }

/-- _analyze_pressure_points(self): first checkpoint dividing the current
total (with total ≥ checkpoint) fires. -/
def analyze_pressure_points (history : List Outcome) : Prediction :=
  let total := history.length
  match pressure_points.find? (fun point => decide (total % point = 0 ∧ point ≤ total)) with
  | some point =>
      let last_n := lastN point history
      let p_count := last_n.count Outcome.PLAYER
      let b_count := last_n.count Outcome.BANKER
      { prediction := some (if b_count < p_count then Outcome.BANKER else Outcome.PLAYER)
        confidence := 85 + (min 10 (((p_count : ℤ) - (b_count : ℤ)).natAbs) : ℚ)
        reason := "Ponto de Pressão (múltiplo de " ++ toString point ++ ")" }
  | none => { prediction := none, confidence := 0, reason := "" }

/-- Accumulated per-outcome group of _aggregate_predictions:
\x7b'confidence', 'reasons', 'weight'\x7d. -/
structure GroupAcc where
  confidence : ℚ
  reasons : List String
  weight : ℚ
deriving DecidableEq, Repr

/-- The key a vote is grouped under: method['prediction']. -/
def vote_key (v : WeightedVote) : Option Outcome := v.method.prediction

/-- One iteration of the accumulation loop of _aggregate_predictions over
the insertion-ordered dict pred_counts (update in place when the key
exists, else append a fresh group). -/
def addVote : List (Option Outcome × GroupAcc) → WeightedVote → List (Option Outcome × GroupAcc)
  | [], v => [(vote_key v, { confidence := v.method.confidence * v.weight
                             reasons := [v.method.reason]
                             weight := v.weight })]
  | (k, g) :: rest, v =>
      if k = vote_key v then
        (k, { confidence := g.confidence + v.method.confidence * v.weight
              reasons := g.reasons ++ [v.method.reason]
              weight := g.weight + v.weight }) :: rest
      else
        (k, g) :: addVote rest v

/-- The scan performed by Python max(..., key=lambda x: x[1]['weight']):
keep the current best, replace only on strictly greater weight, so the
first maximal element wins. -/
def pickMax (best y : Option Outcome × GroupAcc) : Option Outcome × GroupAcc :=
  if best.2.weight < y.2.weight then y else best

/-- max(pred_counts.items(), key=...): none on the empty dict (where
Python max raises ValueError). -/
def maxByWeight : List (Option Outcome × GroupAcc) → Option (Option Outcome × GroupAcc)
  | [] => none
  | x :: xs => some (xs.foldl pickMax x)

/-- _aggregate_predictions(self, predictions).  The error case is Python
max() raising on an empty dict; the caller guarantees a nonempty vote
list, so this error never escapes predict_next. -/
def aggregate_predictions (predictions : List WeightedVote) : Except String Prediction :=
  let pred_counts := predictions.foldl addVote []
  match maxByWeight pred_counts with
  | none => Except.error "max() arg is an empty sequence"
  | some final_pred =>
      Except.ok
        { prediction := final_pred.1
          confidence := final_pred.2.confidence / final_pred.2.weight
          reason := String.intercalate " | " final_pred.2.reasons }

/-- _apply_bayesian_correction(self, prediction). -/
def apply_bayesian_correction (history : List Outcome) (prediction : Prediction) : Prediction :=
  if history.length < 50 then prediction
  else
    let last_100 := lastN 100 history
    let p_ratio : ℚ := (last_100.count Outcome.PLAYER : ℚ) / (last_100.length : ℚ)
    let b_ratio : ℚ := (last_100.count Outcome.BANKER : ℚ) / (last_100.length : ℚ)
    if prediction.prediction = some Outcome.PLAYER ∧ (0.52 : ℚ) < p_ratio then
      { prediction with
        confidence := max 75 (prediction.confidence * 0.95)
        reason := prediction.reason ++ " | Correção Bayesiana (PLAYER super-representado)" }
    else if prediction.prediction = some Outcome.BANKER ∧ (0.52 : ℚ) < b_ratio then
      { prediction with
        confidence := max 75 (prediction.confidence * 0.95)
        reason := prediction.reason ++ " | Correção Bayesiana (BANKER super-representado)" }
    else prediction

/-- _smart_fallback(self). -/
def smart_fallback (history : List Outcome) : Prediction :=
  let last_10 := lastN 10 history
  let p_count := last_10.count Outcome.PLAYER
  let b_count := last_10.count Outcome.BANKER
  if p_count < 3 then
    { prediction := some Outcome.PLAYER, confidence := 65
      reason := "Correção: PLAYER sub-representado" }
  else if b_count < 3 then
    { prediction := some Outcome.BANKER, confidence := 65
      reason := "Correção: BANKER sub-representado" }
  else
    { prediction := some Outcome.BANKER, confidence := 58
      reason := "Vantagem estatística padrão" }

/-- predict_next(self).  The try/except of the source maps the only
in-model exception (max() on an empty vote list, unreachable because of
the isEmpty guard) to the degraded 'Erro: ...' prediction. -/
def predict_next (history : List Outcome) : Prediction :=
  if history.length < 5 then
    { prediction := none, confidence := 0, reason := "Histórico insuficiente" }
  else
    let quantum := analyze_quantum_pattern history
    let fibonacci := analyze_dynamic_fibonacci history
    let pressure := analyze_pressure_points history
    let predictions : List WeightedVote :=
      [ { method := quantum, weight := 0.45 }
      , { method := fibonacci, weight := 0.35 }
      , { method := pressure, weight := 0.20 } ]
    let valid_preds := predictions.filter (fun p => p.method.prediction.isSome)
    if valid_preds.isEmpty then smart_fallback history
    else
      match aggregate_predictions valid_preds with
      | Except.ok final_pred => apply_bayesian_correction history final_pred
      | Except.error e =>
          { prediction := none, confidence := 0, reason := "Erro: " ++ e }

/-- Round an integer to the nearest value, halves to even: the tie rule of
Python round(). -/
def roundHalfEven (q : ℚ) : ℤ :=
  let f : ℤ := ⌊q⌋
  let frac := q - (f : ℚ)
  if (1 : ℚ) / 2 < frac then f + 1
  else if frac < (1 : ℚ) / 2 then f
  else if f % 2 = 0 then f else f + 1

/-- Python round(x, 1): one decimal place, ties to even (exact-rational
model of the float round; the two can differ only when the float noise of
x sits against a .05 boundary, which no claim exercises). -/
def pyRound1 (q : ℚ) : ℚ := (roundHalfEven (q * 10) : ℚ) / 10

/-- _update_win_rate(self). -/
def update_win_rate (st : BacBoPredictor) : BacBoPredictor :=
  if 0 < st.prediction_stats.total then
    { st with prediction_stats :=
        { st.prediction_stats with
          win_rate := pyRound1 ((st.prediction_stats.wins : ℚ) /
                                (st.prediction_stats.total : ℚ) * 100) } }
  else st

/-- deque(maxlen=20).append: drop from the left on overflow. -/
def dequeAppend (maxlen : Nat) (l : List α) (x : α) : List α :=
  let l2 := l ++ [x]
  if maxlen < l2.length then l2.drop (l2.length - maxlen) else l2

/-- _update_stats(self, actual_result).  It reads
st.session_state.last_prediction, which add_result has ALREADY overwritten
with the prediction computed from the updated history (the new outcome
included) before calling here.  The none branch is unreachable from
add_result (Python would raise an AttributeError there). -/
def update_stats (st : BacBoPredictor) (actual_result : Outcome) : BacBoPredictor :=
  match st.last_prediction with
  | none => st
  | some lp =>
      let stats0 := st.prediction_stats
      let stats1 := if lp.prediction = some actual_result then
                      { stats0 with wins := stats0.wins + 1 }
                    else stats0
      let stats2 := { stats1 with total := stats1.total + 1 }
      { st with
        prediction_stats := stats2
        last_predictions := dequeAppend 20 st.last_predictions
          { predicted := lp.prediction, actual := actual_result, confidence := lp.confidence } }

/-- The successful path of add_result after validation: append, then (from
5 entries on) compute and store the NEW prediction, then (from 6 entries
on) update the statistics against that freshly stored prediction — the
exact statement order of the source. -/
def add_result_valid (st : BacBoPredictor) (o : Outcome) : BacBoPredictor :=
  let st1 := { st with game_history := st.game_history ++ [o] }
  if 5 ≤ st1.game_history.length then
    let st2 := { st1 with last_prediction := some (predict_next st1.game_history) }
    if 5 < st2.game_history.length then
      update_win_rate (update_stats st2 o)
    else st2
  else st1

/-- add_result(self, result).  The raise happens before any mutation of
the instance, so an error leaves the state untouched. -/
def add_result (st : BacBoPredictor) (result : String) : Except String BacBoPredictor :=
  let r := pyUpper result
  match parseOutcome r with
  | none => Except.error "Resultado inválido"
  | some o => Except.ok (add_result_valid st o)

/-- A caller of add_result that catches the exception: on failure it keeps
the previous state (faithful because the source raises before mutating). -/
def add_result_caught (st : BacBoPredictor) (result : String) :
    BacBoPredictor × Option String :=
  match add_result st result with
  | Except.ok st2 => (st2, none)
  | Except.error e => (st, some e)

/-- Feed a list of valid outcomes through add_result from a fresh engine. -/
def runOutcomes (os : List Outcome) : BacBoPredictor :=
  os.foldl add_result_valid initState

/-- The dict returned by get_stats (the branch that would add
'recent_win_rate' never returns, see get_stats). -/
structure GetStatsResult where
  win_rate : ℚ
  wins : Nat
  total : Nat
  recent_predictions : List AccRecord
deriving DecidableEq, Repr

/-- get_stats(self).  When stats['total'] > 10 the source evaluates
self.last_predictions[-10:]; self.last_predictions is a collections.deque,
and slicing a deque is unsupported in Python and raises TypeError, so that
branch is modelled as the error it raises. -/
def get_stats (st : BacBoPredictor) : Except String GetStatsResult :=
  let stats : GetStatsResult :=
    { win_rate := st.prediction_stats.win_rate
      wins := st.prediction_stats.wins
      total := st.prediction_stats.total
      recent_predictions := st.last_predictions }
  if 10 < stats.total then
    Except.error "TypeError: sequence index must be integer, not slice"
  else
    Except.ok stats

/-- The ratio of an outcome over the last 100 entries, as computed by
_apply_bayesian_correction. -/
def last100_ratio (history : List Outcome) (o : Outcome) : ℚ :=
  ((lastN 100 history).count o : ℚ) / ((lastN 100 history).length : ℚ)

/-- A 50-entry history (40 ties, then PLAYER, BANKER and seven ties framed
by a final PLAYER) on which the aggregator emits a TIE prediction while
ties dominate the window. -/
def log50 : List Outcome :=
  List.replicate 40 Outcome.TIE ++
    [Outcome.PLAYER, Outcome.BANKER, Outcome.TIE, Outcome.TIE, Outcome.TIE,
     Outcome.TIE, Outcome.TIE, Outcome.TIE, Outcome.TIE, Outcome.PLAYER]

/-- Total weight of the votes naming a given outcome group. -/
def wSum (votes : List WeightedVote) (k : Option Outcome) : ℚ :=
  ((votes.filter (fun v => vote_key v == k)).map WeightedVote.weight).sum

/-- Weighted confidence sum of the votes naming a given outcome group. -/
def cSum (votes : List WeightedVote) (k : Option Outcome) : ℚ :=
  ((votes.filter (fun v => vote_key v == k)).map
    (fun v => v.method.confidence * v.weight)).sum

/-- Index of the first vote naming a given outcome group (detector
evaluation order). -/
def firstIdx (votes : List WeightedVote) (k : Option Outcome) : Nat :=
  votes.findIdx (fun v => vote_key v == k)

/-- Keys of the accumulated group list, in insertion order. -/
def keysOf (l : List (Option Outcome × GroupAcc)) : List (Option Outcome) :=
  l.map Prod.fst

/-- First group stored under a key. -/
def lookupG (k : Option Outcome) : List (Option Outcome × GroupAcc) → Option GroupAcc
  | [] => none
  | (k2, g) :: rest => if k2 = k then some g else lookupG k rest

/-- Accumulated weight stored under a key (0 when absent). -/
def keyWeight (l : List (Option Outcome × GroupAcc)) (k : Option Outcome) : ℚ :=
  ((lookupG k l).map GroupAcc.weight).getD 0

/-- Accumulated weighted confidence stored under a key (0 when absent). -/
def keyConf (l : List (Option Outcome × GroupAcc)) (k : Option Outcome) : ℚ :=
  ((lookupG k l).map GroupAcc.confidence).getD 0

/-- Vote keys in order of first occurrence (the insertion order of the
Python dict pred_counts). -/
def predKeys : List WeightedVote → List (Option Outcome)
  | [] => []
  | v :: vs => vote_key v :: (predKeys vs).filter (fun k => !(k == vote_key v))

/-- The A/B count imbalance of the oscillation window (abs of the Python
int subtraction). -/
def quantum_diff (history : List Outcome) : Nat :=
  (((lastN 15 history).count Outcome.PLAYER : ℤ) -
   ((lastN 15 history).count Outcome.BANKER : ℤ)).natAbs

/-- C1 (status: code_bug).  Spec: on a successful record where a prior
prediction exists, the accuracy comparison must use the prediction made
BEFORE the new outcome was recorded, before any new prediction is
computed.  Code: add_result first stores the prediction computed from the
updated history (new outcome included) and _update_stats then compares
THAT one.  Witnessing run: after BANKER,BANKER,BANKER,PLAYER,PLAYER the
stored prediction is PLAYER; recording PLAYER as the sixth outcome should
therefore count a win, but the code recomputes (getting BANKER from the
fallback over the updated history) and counts a loss: wins = 0. -/
theorem add_result_uses_new_prediction_for_stats :
    (runOutcomes [Outcome.BANKER, Outcome.BANKER, Outcome.BANKER,
                  Outcome.PLAYER, Outcome.PLAYER]).last_prediction =
      some { prediction := some Outcome.PLAYER, confidence := 86,
             reason := "Ponto de Pressão (múltiplo de 5)" } ∧
    (runOutcomes [Outcome.BANKER, Outcome.BANKER, Outcome.BANKER,
                  Outcome.PLAYER, Outcome.PLAYER, Outcome.PLAYER]).last_prediction =
      some { prediction := some Outcome.BANKER, confidence := 58,
             reason := "Vantagem estatística padrão" } ∧
    (runOutcomes [Outcome.BANKER, Outcome.BANKER, Outcome.BANKER,
                  Outcome.PLAYER, Outcome.PLAYER, Outcome.PLAYER]).prediction_stats.wins = 0 ∧
    (runOutcomes [Outcome.BANKER, Outcome.BANKER, Outcome.BANKER,
                  Outcome.PLAYER, Outcome.PLAYER, Outcome.PLAYER]).prediction_stats.total = 1 := by
  refine ⟨?_, ?_, ?_, ?_⟩ <;> with_unfolding_all rfl

/-- C2 (status: code_bug).  Spec: with more than 10 recorded comparisons,
get_stats returns the stats dict extended with recent_win_rate.  Code:
self.last_predictions is a collections.deque and the branch slices it
(self.last_predictions[-10:]), which raises TypeError in Python, so no
dict is returned at all.  After 16 recorded PLAYER outcomes the lifetime
total is 11 and get_stats fails. -/
theorem get_stats_raises_on_total_gt_ten :
    (runOutcomes (List.replicate 16 Outcome.PLAYER)).prediction_stats.total = 11 ∧
    get_stats (runOutcomes (List.replicate 16 Outcome.PLAYER)) =
      Except.error "TypeError: sequence index must be integer, not slice" := by
  refine ⟨?_, ?_⟩ <;> with_unfolding_all rfl

/-- C3 counterexample.  On the history PLAYER,BANKER,TIE,PLAYER,BANKER the
codes are 2,3,5,2,3 and the first reference window [2,3,5] (i = 0) matches,
so the claim demands an outcome whose code equals
fibonacci_sequence[0+3] = 8; no outcome has code 8, and the code actually
predicts TIE (whose code is 5). -/
theorem fib_detector_prediction_code_mismatch :
    windowMatches ((lastN 10 [Outcome.PLAYER, Outcome.BANKER, Outcome.TIE,
                              Outcome.PLAYER, Outcome.BANKER]).map outcomeCode) 0 = true ∧
    analyze_dynamic_fibonacci [Outcome.PLAYER, Outcome.BANKER, Outcome.TIE,
                               Outcome.PLAYER, Outcome.BANKER] =
      { prediction := some Outcome.TIE, confidence := 83,
        reason := "Fibonacci Dinâmico ([2, 3, 5])" } ∧
    fibonacci_sequence.getD (0 + 3) 0 = 8 ∧
    outcomeCode Outcome.PLAYER = 2 ∧
    outcomeCode Outcome.BANKER = 3 ∧
    outcomeCode Outcome.TIE = 5 := by
  refine ⟨?_, ?_, ?_, ?_, ?_, ?_⟩ <;> with_unfolding_all rfl

/-- C4 counterexample.  After the run BANKER×3, PLAYER×3, BANKER×2 the
stats hold wins = 1 and total = 3, but the stored win_rate is the rounded
333/10 = 33.3, not the exact 1/3·100 the claim demands. -/
theorem win_rate_not_exact_after_rounding :
    (runOutcomes [Outcome.BANKER, Outcome.BANKER, Outcome.BANKER, Outcome.PLAYER,
                  Outcome.PLAYER, Outcome.PLAYER, Outcome.BANKER, Outcome.BANKER]).prediction_stats =
      { wins := 1, total := 3, win_rate := 333/10 } ∧
    ((333 : ℚ)/10 ≠ (1 : ℚ) / 3 * 100) := by
  refine ⟨by with_unfolding_all rfl, by norm_num⟩

/-- C6 counterexample.  On log50 the engine aggregates a TIE prediction of
confidence 83 while TIE holds ratio 47/50 > 0.52 over the last 100
entries; the claim demands the corrected confidence
max(75, 83·0.95) = 78.85, but the corrector (which only inspects PLAYER
and BANKER) returns the prediction unchanged. -/
theorem bayesian_correction_ignores_tie_ratio :
    log50.length = 50 ∧
    last100_ratio log50 Outcome.TIE = 47/50 ∧
    ((0.52 : ℚ) < 47/50) ∧
    predict_next log50 =
      { prediction := some Outcome.TIE, confidence := 83,
        reason := "Fibonacci Dinâmico ([2, 3, 5])" } ∧
    apply_bayesian_correction log50 (predict_next log50) = predict_next log50 ∧
    ((83 : ℚ) ≠ max 75 (83 * 0.95)) := by
  refine ⟨by with_unfolding_all rfl, by with_unfolding_all rfl, by norm_num,
         by with_unfolding_all rfl, by with_unfolding_all rfl, by norm_num⟩
/-- C6 (status: corrected).  Amended claim: the corrector passes through
unchanged below 50 log entries; with at least 50, it rescales only a
PLAYER prediction whose PLAYER ratio over the last 100 entries exceeds
0.52 or a BANKER prediction whose BANKER ratio exceeds 0.52, setting
confidence to max(75, confidence·0.95) (which can raise a low confidence)
and appending the correction note; every other prediction — TIE and None
included, whatever their ratios — passes through unchanged. -/
theorem bayesian_correction_player_banker_only (history : List Outcome) (pred : Prediction) :
    (history.length < 50 → apply_bayesian_correction history pred = pred) ∧
    (50 ≤ history.length →
      (pred.prediction = some Outcome.PLAYER →
        (0.52 : ℚ) < last100_ratio history Outcome.PLAYER →
        apply_bayesian_correction history pred =
          { pred with confidence := max 75 (pred.confidence * 0.95)
                      reason := pred.reason ++ " | Correção Bayesiana (PLAYER super-representado)" }) ∧
      (pred.prediction = some Outcome.BANKER →
        (0.52 : ℚ) < last100_ratio history Outcome.BANKER →
        apply_bayesian_correction history pred =
          { pred with confidence := max 75 (pred.confidence * 0.95)
                      reason := pred.reason ++ " | Correção Bayesiana (BANKER super-representado)" }) ∧
      (¬(pred.prediction = some Outcome.PLAYER ∧
           (0.52 : ℚ) < last100_ratio history Outcome.PLAYER) →
       ¬(pred.prediction = some Outcome.BANKER ∧
           (0.52 : ℚ) < last100_ratio history Outcome.BANKER) →
        apply_bayesian_correction history pred = pred)) := by
  unfold apply_bayesian_correction last100_ratio
  constructor
  · intro h
    rw [if_pos h]
  · intro h50
    have hlen : ¬ history.length < 50 := by omega
    rw [if_neg hlen]
    simp only [last100_ratio]
    refine ⟨?_, ?_, ?_⟩
    · intro hp hr
      rw [if_pos ⟨hp, hr⟩]
    · intro hb hr
      have hnp : ¬(pred.prediction = some Outcome.PLAYER ∧
          (0.52 : ℚ) < (↑((lastN 100 history).count Outcome.PLAYER) : ℚ) /
            (↑(lastN 100 history).length : ℚ)) := by
        rintro ⟨hp, -⟩
        rw [hp] at hb
        exact Option.noConfusion hb (fun h => Outcome.noConfusion h)
      rw [if_neg hnp, if_pos ⟨hb, hr⟩]
    · intro hnp hnb
      rw [if_neg, if_neg]
      · exact hnb
      · exact hnp
theorem lastN_length_of_le {α : Type} {n : Nat} {l : List α} (h : n ≤ l.length) :
    (lastN n l).length = n := by
  simp [lastN]
  omega

theorem lastN_lastN {α : Type} {a b : Nat} (l : List α) (h : a ≤ b) :
    lastN a (lastN b l) = lastN a l := by
  simp only [lastN, List.drop_drop, List.length_drop]
  congr 1
  omega

/-- C10 (status: confirmed).  When the last 5 entries are all TIE and the
last-15 A/B imbalance is below the threshold, the oscillation detector
does not abstain: the len(set)==1 streak branch fires and its else-arm
predicts PLAYER with confidence 89, although neither PLAYER nor BANKER is
streaking. -/
theorem quantum_tie_streak_predicts_player (history : List Outcome)
    (hlen : 5 ≤ history.length)
    (hstreak : ∀ x ∈ lastN 5 history, x = Outcome.TIE)
    (hdiff : quantum_diff history < quantum_threshold) :
    (analyze_quantum_pattern history).prediction = some Outcome.PLAYER ∧
    (analyze_quantum_pattern history).confidence = 89 := by
  have h15 : lastN 5 (lastN 15 history) = lastN 5 history := lastN_lastN history (by omega)
  have hlen5 : (lastN 5 history).length = 5 := lastN_length_of_le hlen
  unfold quantum_diff at hdiff
  simp only [analyze_quantum_pattern]
  rw [if_neg (Nat.not_le.mpr hdiff), h15]
  cases e : lastN 5 history with
  | nil => rw [e] at hlen5; simp at hlen5
  | cons a t =>
    have ha : a = Outcome.TIE := hstreak a (by rw [e]; exact List.mem_cons_self a t)
    have hall : all_same (a :: t) = true := by
      simp only [all_same, List.all_eq_true]
      intro y hy
      have : y = Outcome.TIE := hstreak y (by rw [e]; exact List.mem_cons_of_mem a hy)
      rw [this, ha]
      exact beq_self_eq_true Outcome.TIE
    rw [if_pos hall]
    subst ha
    simp
theorem quantum_tie_streak_predicts_player_witness :
    (analyze_quantum_pattern (List.replicate 5 Outcome.TIE)).prediction = some Outcome.PLAYER ∧
    (analyze_quantum_pattern (List.replicate 5 Outcome.TIE)).confidence = 89 :=
  quantum_tie_streak_predicts_player (List.replicate 5 Outcome.TIE)
    (by with_unfolding_all decide)
    (by with_unfolding_all decide)
    (by with_unfolding_all decide)

/-- C7 (status: confirmed).  Over the last 15 entries: when the A/B count
imbalance reaches the threshold 7, the detector predicts the minority of
PLAYER/BANKER with confidence min(90, 75 + 2·diff); otherwise a 5-streak
of PLAYER (resp. BANKER) makes it predict the other with confidence 89;
otherwise it abstains with prediction None and confidence 0.  The witness
is the claim's 12×A/3×B instance: BANKER with confidence 90. -/
theorem quantum_detector_spec (history : List Outcome) (hlen : 5 ≤ history.length) :
    (quantum_threshold ≤ quantum_diff history →
      ((lastN 15 history).count Outcome.BANKER < (lastN 15 history).count Outcome.PLAYER →
        (analyze_quantum_pattern history).prediction = some Outcome.BANKER) ∧
      ((lastN 15 history).count Outcome.PLAYER < (lastN 15 history).count Outcome.BANKER →
        (analyze_quantum_pattern history).prediction = some Outcome.PLAYER) ∧
      (analyze_quantum_pattern history).confidence =
        min 90 (75 + (quantum_diff history : ℚ) * 2)) ∧
    (quantum_diff history < quantum_threshold →
      ((∀ x ∈ lastN 5 history, x = Outcome.PLAYER) →
        (analyze_quantum_pattern history).prediction = some Outcome.BANKER ∧
        (analyze_quantum_pattern history).confidence = 89) ∧
      ((∀ x ∈ lastN 5 history, x = Outcome.BANKER) →
        (analyze_quantum_pattern history).prediction = some Outcome.PLAYER ∧
        (analyze_quantum_pattern history).confidence = 89) ∧
      ((¬ ∃ v, ∀ x ∈ lastN 5 history, x = v) →
        analyze_quantum_pattern history =
          { prediction := none, confidence := 0, reason := "" })) := by
  have h15 : lastN 5 (lastN 15 history) = lastN 5 history := lastN_lastN history (by omega)
  have hlen5 : (lastN 5 history).length = 5 := lastN_length_of_le hlen
  constructor
  · intro hge
    unfold quantum_diff at hge
    simp only [analyze_quantum_pattern]
    rw [if_pos hge]
    refine ⟨fun hlt => by rw [if_pos hlt], fun hlt => by rw [if_neg (by omega)], ?_⟩
    unfold quantum_diff
    rfl
  · intro hlt
    unfold quantum_diff at hlt
    simp only [analyze_quantum_pattern]
    rw [if_neg (Nat.not_le.mpr hlt), h15]
    cases e : lastN 5 history with
    | nil => rw [e] at hlen5; simp at hlen5
    | cons a t =>
      refine ⟨?_, ?_, ?_⟩
      · intro hstreak
        have ha : a = Outcome.PLAYER := hstreak a (List.mem_cons_self a t)
        have hall : all_same (a :: t) = true := by
          simp only [all_same, List.all_eq_true]
          intro y hy
          have hyv : y = Outcome.PLAYER := hstreak y (List.mem_cons_of_mem a hy)
          rw [hyv, ha]
          exact beq_self_eq_true _
        rw [if_pos hall]
        subst ha
        simp
      · intro hstreak
        have ha : a = Outcome.BANKER := hstreak a (List.mem_cons_self a t)
        have hall : all_same (a :: t) = true := by
          simp only [all_same, List.all_eq_true]
          intro y hy
          have hyv : y = Outcome.BANKER := hstreak y (List.mem_cons_of_mem a hy)
          rw [hyv, ha]
          exact beq_self_eq_true _
        rw [if_pos hall]
        subst ha
        simp
      · intro hnos
        have hall : all_same (a :: t) = false := by
          by_contra hne
          have hall2 : all_same (a :: t) = true := by
            cases h2 : all_same (a :: t)
            · exact absurd h2 hne
            · rfl
          apply hnos
          refine ⟨a, ?_⟩
          intro x hx
          rcases List.mem_cons.mp hx with h | h
          · exact h
          · simp only [all_same, List.all_eq_true] at hall2
            exact eq_of_beq (hall2 x h)
        rw [if_neg (by rw [hall]; exact Bool.false_ne_true)]

theorem quantum_detector_spec_witness :
    (analyze_quantum_pattern (List.replicate 12 Outcome.PLAYER ++
        List.replicate 3 Outcome.BANKER)).prediction = some Outcome.BANKER ∧
    (analyze_quantum_pattern (List.replicate 12 Outcome.PLAYER ++
        List.replicate 3 Outcome.BANKER)).confidence = 90 := by
  have h := quantum_detector_spec
    (List.replicate 12 Outcome.PLAYER ++ List.replicate 3 Outcome.BANKER)
    (by with_unfolding_all decide)
  have h1 := (h.1 (by with_unfolding_all decide)).1 (by with_unfolding_all decide)
  have h2 := (h.1 (by with_unfolding_all decide)).2.2
  refine ⟨h1, ?_⟩
  rw [h2]
  with_unfolding_all rfl
/-- C8 (status: confirmed).  The periodicity detector scans the
checkpoints [5,7,10,15,20,25,30] in ascending order; at the first p with
total % p == 0 and total ≥ p it predicts PLAYER when the last-p A/B
counts are equal or BANKER-majority and BANKER when PLAYER-majority, with
confidence 85 + min(10, |diff|); only that first checkpoint is used, and
it abstains when no checkpoint divides total. -/
theorem pressure_detector_first_checkpoint (history : List Outcome) :
    (∀ p, p ∈ pressure_points → history.length % p = 0 → p ≤ history.length →
      (∀ q ∈ pressure_points, q < p → ¬(history.length % q = 0 ∧ q ≤ history.length)) →
      ((lastN p history).count Outcome.BANKER < (lastN p history).count Outcome.PLAYER →
         (analyze_pressure_points history).prediction = some Outcome.BANKER) ∧
      ((lastN p history).count Outcome.PLAYER ≤ (lastN p history).count Outcome.BANKER →
         (analyze_pressure_points history).prediction = some Outcome.PLAYER) ∧
      (analyze_pressure_points history).confidence =
        85 + (min 10 ((((lastN p history).count Outcome.PLAYER : ℤ) -
                       ((lastN p history).count Outcome.BANKER : ℤ)).natAbs) : ℚ)) ∧
    ((∀ q ∈ pressure_points, ¬ (q ∣ history.length)) →
      analyze_pressure_points history = { prediction := none, confidence := 0, reason := "" }) := by
  constructor
  · intro p hp hmod hle hfirst
    have hpt : decide (history.length % p = 0 ∧ p ≤ history.length) = true :=
      decide_eq_true ⟨hmod, hle⟩
    have hfind : pressure_points.find?
        (fun point => decide (history.length % point = 0 ∧ point ≤ history.length)) = some p := by
      have no5 := fun h => decide_eq_false (hfirst 5 (by decide) h)
      have no7 := fun h => decide_eq_false (hfirst 7 (by decide) h)
      have no10 := fun h => decide_eq_false (hfirst 10 (by decide) h)
      have no15 := fun h => decide_eq_false (hfirst 15 (by decide) h)
      have no20 := fun h => decide_eq_false (hfirst 20 (by decide) h)
      have no25 := fun h => decide_eq_false (hfirst 25 (by decide) h)
      rw [show pressure_points = [5, 7, 10, 15, 20, 25, 30] from rfl]
      simp only [List.find?]
      fin_cases hp
      · rw [hpt]
      · rw [no5 (by norm_num), hpt]
      · rw [no5 (by norm_num), no7 (by norm_num), hpt]
      · rw [no5 (by norm_num), no7 (by norm_num), no10 (by norm_num), hpt]
      · rw [no5 (by norm_num), no7 (by norm_num), no10 (by norm_num), no15 (by norm_num), hpt]
      · rw [no5 (by norm_num), no7 (by norm_num), no10 (by norm_num), no15 (by norm_num),
            no20 (by norm_num), hpt]
      · rw [no5 (by norm_num), no7 (by norm_num), no10 (by norm_num), no15 (by norm_num),
            no20 (by norm_num), no25 (by norm_num), hpt]
    refine ⟨fun hlt => ?_, fun hle2 => ?_, ?_⟩
    · simp only [analyze_pressure_points, hfind]
      rw [if_pos hlt]
    · simp only [analyze_pressure_points, hfind]
      rw [if_neg (by omega)]
    · simp only [analyze_pressure_points, hfind]
  · intro hnod
    have hfind : pressure_points.find?
        (fun point => decide (history.length % point = 0 ∧ point ≤ history.length)) = none := by
      rw [List.find?_eq_none]
      intro q hq
      simp only [decide_eq_true_eq]
      rintro ⟨hm, -⟩
      exact hnod q hq (Nat.dvd_of_mod_eq_zero hm)
    simp only [analyze_pressure_points, hfind]

theorem pressure_detector_first_checkpoint_witness :
    (analyze_pressure_points [Outcome.PLAYER, Outcome.PLAYER, Outcome.PLAYER, Outcome.PLAYER,
        Outcome.BANKER, Outcome.BANKER, Outcome.BANKER]).prediction = some Outcome.BANKER ∧
    (analyze_pressure_points [Outcome.PLAYER, Outcome.PLAYER, Outcome.PLAYER, Outcome.PLAYER,
        Outcome.BANKER, Outcome.BANKER, Outcome.BANKER]).confidence = 86 := by
  have h := (pressure_detector_first_checkpoint
    [Outcome.PLAYER, Outcome.PLAYER, Outcome.PLAYER, Outcome.PLAYER,
     Outcome.BANKER, Outcome.BANKER, Outcome.BANKER]).1 7
    (by decide) (by decide) (by decide) (by decide)
  refine ⟨h.1 (by with_unfolding_all decide), ?_⟩
  rw [h.2.2]
  with_unfolding_all rfl
theorem bayesian_correction_player_banker_only_witness :
    apply_bayesian_correction (List.replicate 50 Outcome.PLAYER)
        { prediction := some Outcome.PLAYER, confidence := 60, reason := "r" } =
      { prediction := some Outcome.PLAYER, confidence := max 75 ((60 : ℚ) * 0.95),
        reason := "r" ++ " | Correção Bayesiana (PLAYER super-representado)" } :=
  ((bayesian_correction_player_banker_only (List.replicate 50 Outcome.PLAYER)
      { prediction := some Outcome.PLAYER, confidence := 60, reason := "r" }).2
    (by simp)).1 rfl (by with_unfolding_all decide)

theorem stats_inv_step (st : BacBoPredictor) (o : Outcome)
    (h1 : st.prediction_stats.wins ≤ st.prediction_stats.total)
    (h2 : st.prediction_stats.win_rate =
      (if st.prediction_stats.total = 0 then 0
       else pyRound1 ((st.prediction_stats.wins : ℚ) / (st.prediction_stats.total : ℚ) * 100))) :
    (add_result_valid st o).prediction_stats.wins ≤
      (add_result_valid st o).prediction_stats.total ∧
    (add_result_valid st o).prediction_stats.win_rate =
      (if (add_result_valid st o).prediction_stats.total = 0 then 0
       else pyRound1 (((add_result_valid st o).prediction_stats.wins : ℚ) /
         ((add_result_valid st o).prediction_stats.total : ℚ) * 100)) := by
  simp only [add_result_valid]
  split
  · split
    · simp only [update_stats, update_win_rate]
      by_cases hwin : (predict_next (st.game_history ++ [o])).prediction = some o
      · simp only [if_pos hwin]
        simp only [if_pos (Nat.succ_pos st.prediction_stats.total)]
        refine ⟨by omega, ?_⟩
        rw [if_neg (Nat.succ_ne_zero st.prediction_stats.total)]
      · simp only [if_neg hwin]
        simp only [if_pos (Nat.succ_pos st.prediction_stats.total)]
        refine ⟨by omega, ?_⟩
        rw [if_neg (Nat.succ_ne_zero st.prediction_stats.total)]
    · exact ⟨h1, h2⟩
  · exact ⟨h1, h2⟩

theorem stats_inv_fold (os : List Outcome) :
    ∀ st : BacBoPredictor,
      st.prediction_stats.wins ≤ st.prediction_stats.total →
      st.prediction_stats.win_rate =
        (if st.prediction_stats.total = 0 then 0
         else pyRound1 ((st.prediction_stats.wins : ℚ) / (st.prediction_stats.total : ℚ) * 100)) →
      (os.foldl add_result_valid st).prediction_stats.wins ≤
        (os.foldl add_result_valid st).prediction_stats.total ∧
      (os.foldl add_result_valid st).prediction_stats.win_rate =
        (if (os.foldl add_result_valid st).prediction_stats.total = 0 then 0
         else pyRound1 (((os.foldl add_result_valid st).prediction_stats.wins : ℚ) /
           ((os.foldl add_result_valid st).prediction_stats.total : ℚ) * 100)) := by
  induction os with
  | nil => intro st hw hr; exact ⟨hw, hr⟩
  | cons o os ih =>
    intro st hw hr
    have hstep := stats_inv_step st o hw hr
    exact ih (add_result_valid st o) hstep.1 hstep.2

/-- C4 (status: corrected).  Amended claim: after any sequence of valid
recorded outcomes, wins ≤ total always holds, and the stored win_rate is
wins/total·100 ROUNDED to one decimal place (Python round(x, 1)), or 0
while total = 0. -/
theorem stats_invariant_win_rate_rounded (os : List Outcome) :
    (runOutcomes os).prediction_stats.wins ≤ (runOutcomes os).prediction_stats.total ∧
    (runOutcomes os).prediction_stats.win_rate =
      (if (runOutcomes os).prediction_stats.total = 0 then 0
       else pyRound1 (((runOutcomes os).prediction_stats.wins : ℚ) /
         ((runOutcomes os).prediction_stats.total : ℚ) * 100)) :=
  stats_inv_fold os initState (Nat.le_refl 0) (by with_unfolding_all rfl)
/-- C3 (status: corrected).  Amended claim: the detector maps the last 10
entries to codes (A→2, B→3, C→5) and scans the five 3-element windows of
[2,3,5,8,13,21,34] in ascending index order by comma-joined-string
containment; at the first matching index i it predicts PLAYER if the
reference element at i+3 equals 2, BANKER if it equals 3, and TIE
otherwise — so TIE at every in-range match (the elements at positions
3..6 are 8, 13, 21, 34) — and BANKER when i+3 is out of range (i = 4),
with confidence 83 + 2i; it abstains when no window matches. -/
theorem fib_detector_first_match_scan (history : List Outcome) :
    (∀ i, i < 5 → windowMatches ((lastN 10 history).map outcomeCode) i = true →
      (∀ j, j < i → windowMatches ((lastN 10 history).map outcomeCode) j = false) →
      analyze_dynamic_fibonacci history =
        { prediction := some (fib_outcome i), confidence := 83 + (i : ℚ) * 2,
          reason := "Fibonacci Dinâmico (" ++ pyListStr (fibWindow i) ++ ")" }) ∧
    ((∀ i, i < 5 → windowMatches ((lastN 10 history).map outcomeCode) i = false) →
      analyze_dynamic_fibonacci history = { prediction := none, confidence := 0, reason := "" }) ∧
    (fib_outcome 0 = Outcome.TIE ∧ fib_outcome 1 = Outcome.TIE ∧ fib_outcome 2 = Outcome.TIE ∧
     fib_outcome 3 = Outcome.TIE ∧ fib_outcome 4 = Outcome.BANKER) := by
  refine ⟨?_, ?_, rfl, rfl, rfl, rfl, rfl⟩
  · intro i hi5 hi hjs
    have hrange : List.range (fibonacci_sequence.length - 2) = [0, 1, 2, 3, 4] := rfl
    have hfind : firstFibMatch ((lastN 10 history).map outcomeCode) = some i := by
      unfold firstFibMatch
      rw [hrange]
      interval_cases i
      · simp only [List.find?]
        rw [hi]
      · simp only [List.find?]
        rw [hjs 0 (by norm_num), hi]
      · simp only [List.find?]
        rw [hjs 0 (by norm_num), hjs 1 (by norm_num), hi]
      · simp only [List.find?]
        rw [hjs 0 (by norm_num), hjs 1 (by norm_num), hjs 2 (by norm_num), hi]
      · simp only [List.find?]
        rw [hjs 0 (by norm_num), hjs 1 (by norm_num), hjs 2 (by norm_num),
            hjs 3 (by norm_num), hi]
    simp only [analyze_dynamic_fibonacci, hfind]
  · intro hall
    have hfind : firstFibMatch ((lastN 10 history).map outcomeCode) = none := by
      unfold firstFibMatch
      rw [List.find?_eq_none]
      intro j hj
      have hj5 : j < 5 := by
        have := List.mem_range.mp hj
        simpa [fibonacci_sequence] using this
      simp [hall j hj5]
    simp only [analyze_dynamic_fibonacci, hfind]

theorem fib_detector_first_match_scan_witness :
    analyze_dynamic_fibonacci [Outcome.PLAYER, Outcome.BANKER, Outcome.TIE,
                               Outcome.PLAYER, Outcome.BANKER] =
      { prediction := some (fib_outcome 0), confidence := 83 + (0 : ℚ) * 2,
        reason := "Fibonacci Dinâmico (" ++ pyListStr (fibWindow 0) ++ ")" } :=
  (fib_detector_first_match_scan _).1 0 (by norm_num) (by with_unfolding_all rfl)
    (fun j hj => absurd hj (Nat.not_lt_zero j))
theorem parseOutcome_none_iff (r : String) : parseOutcome r = none ↔ r ∉ valid_results := by
  unfold parseOutcome valid_results
  split_ifs <;> simp_all

theorem add_result_valid_history (st : BacBoPredictor) (o : Outcome) :
    (add_result_valid st o).game_history = st.game_history ++ [o] := by
  simp only [add_result_valid, update_stats, update_win_rate]
  split
  · split
    · split <;> simp [apply_ite]
    · rfl
  · rfl

/-- C9 (status: confirmed).  add_result succeeds exactly on a token that
is one of the three outcomes up to letter case, appends its upper-case
canonical form, and otherwise fails with the validation error, leaving the
caller's state untouched (the source raises before any mutation). -/
theorem add_result_validation_spec (st : BacBoPredictor) (s : String) :
    (pyUpper s ∈ valid_results →
      ∃ o, outcomeStr o = pyUpper s ∧
        add_result st s = Except.ok (add_result_valid st o) ∧
        (add_result_valid st o).game_history = st.game_history ++ [o]) ∧
    (pyUpper s ∉ valid_results →
      add_result st s = Except.error "Resultado inválido" ∧
      add_result_caught st s = (st, some "Resultado inválido")) := by
  constructor
  · intro hmem
    simp only [valid_results, List.mem_cons, List.not_mem_nil, or_false] at hmem
    rcases hmem with h | h | h
    · refine ⟨Outcome.PLAYER, by rw [h]; rfl, ?_, add_result_valid_history st Outcome.PLAYER⟩
      simp [add_result, h, parseOutcome]
    · refine ⟨Outcome.BANKER, by rw [h]; rfl, ?_, add_result_valid_history st Outcome.BANKER⟩
      simp [add_result, h, parseOutcome]
    · refine ⟨Outcome.TIE, by rw [h]; rfl, ?_, add_result_valid_history st Outcome.TIE⟩
      simp [add_result, h, parseOutcome]
  · intro hmem
    have hp : parseOutcome (pyUpper s) = none := (parseOutcome_none_iff (pyUpper s)).mpr hmem
    constructor
    · simp only [add_result, hp]
    · simp only [add_result_caught, add_result, hp]

theorem add_result_validation_spec_witness :
    (∃ o, outcomeStr o = pyUpper "player" ∧
      add_result initState "player" = Except.ok (add_result_valid initState o) ∧
      (add_result_valid initState o).game_history = initState.game_history ++ [o]) ∧
    (add_result initState "xyz" = Except.error "Resultado inválido" ∧
     add_result_caught initState "xyz" = (initState, some "Resultado inválido")) :=
  ⟨(add_result_validation_spec initState "player").1 (by with_unfolding_all decide),
   (add_result_validation_spec initState "xyz").2 (by with_unfolding_all decide)⟩
theorem addVote_keys (acc : List (Option Outcome × GroupAcc)) (v : WeightedVote) :
    keysOf (addVote acc v) =
      if vote_key v ∈ keysOf acc then keysOf acc else keysOf acc ++ [vote_key v] := by
  induction acc with
  | nil => simp [addVote, keysOf]
  | cons e rest ih =>
    obtain ⟨k, g⟩ := e
    simp only [keysOf, List.map_cons, List.mem_cons] at ih ⊢
    by_cases hk : k = vote_key v
    · subst hk
      simp [addVote]
    · simp only [addVote, if_neg hk, List.map_cons]
      by_cases hmem : vote_key v ∈ List.map Prod.fst rest
      · rw [if_pos (Or.inr hmem), ih, if_pos hmem]
      · rw [if_neg (by rintro (h | h); exact hk h.symm; exact hmem h), ih, if_neg hmem]
        rfl

theorem lookupG_addVote_self (acc : List (Option Outcome × GroupAcc)) (v : WeightedVote) :
    lookupG (vote_key v) (addVote acc v) =
      some (match lookupG (vote_key v) acc with
        | none => { confidence := v.method.confidence * v.weight
                    reasons := [v.method.reason], weight := v.weight }
        | some g => { confidence := g.confidence + v.method.confidence * v.weight
                      reasons := g.reasons ++ [v.method.reason]
                      weight := g.weight + v.weight }) := by
  induction acc with
  | nil => simp [addVote, lookupG]
  | cons e rest ih =>
    obtain ⟨k, g⟩ := e
    by_cases hk : k = vote_key v
    · subst hk
      simp [addVote, lookupG]
    · simp only [addVote, if_neg hk, lookupG, if_neg hk]
      exact ih

theorem lookupG_addVote_ne (acc : List (Option Outcome × GroupAcc)) (v : WeightedVote)
    (k : Option Outcome) (hk : k ≠ vote_key v) :
    lookupG k (addVote acc v) = lookupG k acc := by
  induction acc with
  | nil =>
    simp only [addVote, lookupG]
    rw [if_neg (fun h => hk h.symm)]
  | cons e rest ih =>
    obtain ⟨k2, g⟩ := e
    by_cases hk2 : k2 = vote_key v
    · subst hk2
      simp only [addVote, if_pos rfl, lookupG]
      rw [if_neg (fun h => hk h.symm), if_neg (fun h => hk h.symm)]
    · simp only [addVote, if_neg hk2, lookupG]
      by_cases hk3 : k2 = k
      · rw [if_pos hk3, if_pos hk3]
      · rw [if_neg hk3, if_neg hk3]
        exact ih
theorem wSum_nil (k : Option Outcome) : wSum [] k = 0 := rfl

theorem wSum_cons (v : WeightedVote) (vs : List WeightedVote) (k : Option Outcome) :
    wSum (v :: vs) k = (if vote_key v = k then v.weight else 0) + wSum vs k := by
  simp only [wSum, List.filter_cons]
  by_cases h : vote_key v = k
  · rw [if_pos (by simpa using h), if_pos h]
    simp
  · rw [if_neg (by simpa using h), if_neg h]
    simp

theorem cSum_cons (v : WeightedVote) (vs : List WeightedVote) (k : Option Outcome) :
    cSum (v :: vs) k =
      (if vote_key v = k then v.method.confidence * v.weight else 0) + cSum vs k := by
  simp only [cSum, List.filter_cons]
  by_cases h : vote_key v = k
  · rw [if_pos (by simpa using h), if_pos h]
    simp
  · rw [if_neg (by simpa using h), if_neg h]
    simp

theorem keyWeight_addVote (acc : List (Option Outcome × GroupAcc)) (v : WeightedVote)
    (k : Option Outcome) :
    keyWeight (addVote acc v) k =
      keyWeight acc k + (if vote_key v = k then v.weight else 0) := by
  by_cases h : vote_key v = k
  · subst h
    rw [keyWeight, lookupG_addVote_self, if_pos rfl]
    cases hl : lookupG (vote_key v) acc <;> simp [keyWeight, hl]
  · rw [keyWeight, lookupG_addVote_ne acc v k (fun hc => h hc.symm), if_neg h]
    simp [keyWeight]

theorem keyConf_addVote (acc : List (Option Outcome × GroupAcc)) (v : WeightedVote)
    (k : Option Outcome) :
    keyConf (addVote acc v) k =
      keyConf acc k + (if vote_key v = k then v.method.confidence * v.weight else 0) := by
  by_cases h : vote_key v = k
  · subst h
    rw [keyConf, lookupG_addVote_self, if_pos rfl]
    cases hl : lookupG (vote_key v) acc <;> simp [keyConf, hl]
  · rw [keyConf, lookupG_addVote_ne acc v k (fun hc => h hc.symm), if_neg h]
    simp [keyConf]

theorem keyWeight_foldl (vs : List WeightedVote) :
    ∀ (acc : List (Option Outcome × GroupAcc)) (k : Option Outcome),
      keyWeight (vs.foldl addVote acc) k = keyWeight acc k + wSum vs k := by
  induction vs with
  | nil => intro acc k; simp [wSum_nil]
  | cons v vs ih =>
    intro acc k
    rw [List.foldl_cons, ih (addVote acc v) k, keyWeight_addVote, wSum_cons]
    ring

theorem keyConf_foldl (vs : List WeightedVote) :
    ∀ (acc : List (Option Outcome × GroupAcc)) (k : Option Outcome),
      keyConf (vs.foldl addVote acc) k = keyConf acc k + cSum vs k := by
  induction vs with
  | nil => intro acc k; simp [cSum]
  | cons v vs ih =>
    intro acc k
    rw [List.foldl_cons, ih (addVote acc v) k, keyConf_addVote, cSum_cons]
    ring
theorem predKeys_nodup (vs : List WeightedVote) : (predKeys vs).Nodup := by
  induction vs with
  | nil => simp [predKeys]
  | cons v vs ih =>
    simp only [predKeys]
    refine List.nodup_cons.mpr ⟨?_, ih.filter _⟩
    intro hmem
    have := List.of_mem_filter hmem
    simp at this

theorem mem_predKeys (vs : List WeightedVote) (k : Option Outcome) :
    k ∈ predKeys vs ↔ k ∈ vs.map vote_key := by
  induction vs with
  | nil => simp [predKeys]
  | cons v vs ih =>
    simp only [predKeys, List.map_cons, List.mem_cons, List.mem_filter]
    by_cases hk : k = vote_key v
    · simp [hk]
    · simp [hk, ih]

theorem keys_foldl (vs : List WeightedVote) :
    ∀ acc : List (Option Outcome × GroupAcc),
      keysOf (vs.foldl addVote acc) =
        keysOf acc ++ (predKeys vs).filter (fun k => decide (k ∉ keysOf acc)) := by
  induction vs with
  | nil => intro acc; simp [predKeys]
  | cons v vs ih =>
    intro acc
    rw [List.foldl_cons, ih (addVote acc v), addVote_keys]
    by_cases hmem : vote_key v ∈ keysOf acc
    · rw [if_pos hmem]
      simp only [predKeys, List.filter_cons]
      rw [if_neg (by simp [hmem]), List.filter_filter]
      congr 1
      apply List.filter_congr
      intro k _
      by_cases hkK : k ∈ keysOf acc
      · simp [hkK]
      · have : k ≠ vote_key v := fun he => hkK (he ▸ hmem)
        simp [hkK, this]
    · rw [if_neg hmem]
      simp only [predKeys, List.filter_cons]
      rw [if_pos (by simp [hmem]), List.filter_filter, List.append_assoc]
      congr 1
      simp only [List.singleton_append, List.cons.injEq, true_and]
      apply List.filter_congr
      intro k _
      by_cases hkp : k = vote_key v
      · simp [hkp]
      · by_cases hkK : k ∈ keysOf acc <;> simp [hkp, hkK]

theorem lookupG_of_mem (l : List (Option Outcome × GroupAcc)) (hnd : (keysOf l).Nodup)
    (k : Option Outcome) (g : GroupAcc) (hm : (k, g) ∈ l) : lookupG k l = some g := by
  induction l with
  | nil => simp at hm
  | cons e rest ih =>
    obtain ⟨k2, g2⟩ := e
    simp only [keysOf, List.map_cons, List.nodup_cons] at hnd
    rcases List.mem_cons.mp hm with h | h
    · rw [Prod.ext_iff] at h
      obtain ⟨h1, h2⟩ := h
      simp only at h1 h2
      subst h1
      subst h2
      simp [lookupG]
    · have hk2 : k2 ≠ k := by
        intro he
        subst he
        exact hnd.1 (by simpa using List.mem_map_of_mem Prod.fst h)
      simp only [lookupG, if_neg hk2]
      exact ih hnd.2 h

theorem addVote_ne_nil (acc : List (Option Outcome × GroupAcc)) (v : WeightedVote) :
    addVote acc v ≠ [] := by
  cases acc with
  | nil => simp [addVote]
  | cons e rest =>
    obtain ⟨k, g⟩ := e
    by_cases hk : k = vote_key v <;> simp [addVote, hk]

theorem foldl_addVote_ne_nil (vs : List WeightedVote) :
    ∀ acc : List (Option Outcome × GroupAcc), acc ≠ [] → vs.foldl addVote acc ≠ [] := by
  induction vs with
  | nil => intro acc h; simpa using h
  | cons v vs ih =>
    intro acc _
    rw [List.foldl_cons]
    exact ih (addVote acc v) (addVote_ne_nil acc v)
theorem foldl_pickMax_spec (xs : List (Option Outcome × GroupAcc))
    (x : Option Outcome × GroupAcc) :
    (xs.foldl pickMax x = x ∧ ∀ y ∈ xs, y.2.weight ≤ x.2.weight) ∨
    (∃ pre y post, xs = pre ++ y :: post ∧ xs.foldl pickMax x = y ∧
      x.2.weight < y.2.weight ∧ (∀ z ∈ pre, z.2.weight < y.2.weight) ∧
      (∀ z ∈ post, z.2.weight ≤ y.2.weight)) := by
  induction xs generalizing x with
  | nil => exact Or.inl ⟨rfl, by simp⟩
  | cons h t ih =>
    rw [List.foldl_cons]
    by_cases hgt : x.2.weight < h.2.weight
    · rw [show pickMax x h = h from by simp [pickMax, hgt]]
      rcases ih h with ⟨heq, hle⟩ | ⟨pre, y, post, hsplit, heq, hlt, hpre, hpost⟩
      · exact Or.inr ⟨[], h, t, rfl, heq, hgt, by simp, hle⟩
      · refine Or.inr ⟨h :: pre, y, post, by rw [hsplit, List.cons_append], heq, lt_trans hgt hlt, ?_, hpost⟩
        intro z hz
        rcases List.mem_cons.mp hz with hz | hz
        · rw [hz]; exact hlt
        · exact hpre z hz
    · rw [show pickMax x h = x from by simp [pickMax, hgt]]
      rcases ih x with ⟨heq, hle⟩ | ⟨pre, y, post, hsplit, heq, hlt, hpre, hpost⟩
      · refine Or.inl ⟨heq, ?_⟩
        intro z hz
        rcases List.mem_cons.mp hz with hz | hz
        · rw [hz]; exact le_of_not_lt hgt
        · exact hle z hz
      · refine Or.inr ⟨h :: pre, y, post, by rw [hsplit, List.cons_append], heq, hlt, ?_, hpost⟩
        intro z hz
        rcases List.mem_cons.mp hz with hz | hz
        · rw [hz]; exact lt_of_le_of_lt (le_of_not_lt hgt) hlt
        · exact hpre z hz

theorem firstIdx_cons (v : WeightedVote) (vs : List WeightedVote) (k : Option Outcome) :
    firstIdx (v :: vs) k = if vote_key v = k then 0 else firstIdx vs k + 1 := by
  simp only [firstIdx, List.findIdx_cons]
  by_cases h : vote_key v = k
  · simp [h]
  · simp only [beq_eq_false_iff_ne.mpr h, cond_false]
    rw [if_neg h]

theorem predKeys_before (vs : List WeightedVote) :
    ∀ k1 k2 : Option Outcome, [k1, k2].Sublist (predKeys vs) →
      firstIdx vs k1 < firstIdx vs k2 := by
  induction vs with
  | nil =>
    intro k1 k2 h
    simp [predKeys] at h
  | cons v vs ih =>
    intro k1 k2 h
    simp only [predKeys] at h
    cases h with
    | cons _ =>
      rename_i htail
      have hk1f : k1 ∈ (predKeys vs).filter (fun k => !(k == vote_key v)) :=
        List.Sublist.subset htail (by simp)
      have hk2f : k2 ∈ (predKeys vs).filter (fun k => !(k == vote_key v)) :=
        List.Sublist.subset htail (by simp)
      have hk1 : k1 ≠ vote_key v := by
        have := List.of_mem_filter hk1f
        simpa using this
      have hk2 : k2 ≠ vote_key v := by
        have := List.of_mem_filter hk2f
        simpa using this
      have hsub : [k1, k2].Sublist (predKeys vs) :=
        List.Sublist.trans htail (List.filter_sublist _)
      rw [firstIdx_cons, firstIdx_cons,
          if_neg (fun he => hk1 he.symm), if_neg (fun he => hk2 he.symm)]
      exact Nat.succ_lt_succ (ih k1 k2 hsub)
    | cons₂ _ =>
      rename_i htail
      have hk2f : k2 ∈ (predKeys vs).filter (fun k => !(k == vote_key v)) :=
        List.Sublist.subset htail (by simp)
      have hk2 : k2 ≠ vote_key v := by
        have := List.of_mem_filter hk2f
        simpa using this
      rw [firstIdx_cons, firstIdx_cons, if_pos rfl, if_neg (fun he => hk2 he.symm)]
      exact Nat.succ_pos _
/-- C5 (status: confirmed).  The aggregator picks the outcome group with
the largest accumulated weight sum, breaking ties towards the group first
encountered in detector evaluation order, and returns as confidence the
winning group's weighted confidence sum divided by its weight sum, so
votes for losing outcomes do not influence the returned confidence. -/
theorem aggregate_selects_max_weight_group (votes : List WeightedVote)
    (hne : votes ≠ []) (hv : ∀ v ∈ votes, (vote_key v).isSome) :
    ∃ res, aggregate_predictions votes = Except.ok res ∧
      (∃ v ∈ votes, vote_key v = res.prediction) ∧
      (∀ v ∈ votes, wSum votes (vote_key v) ≤ wSum votes res.prediction) ∧
      (∀ v ∈ votes, wSum votes (vote_key v) = wSum votes res.prediction →
        firstIdx votes res.prediction ≤ firstIdx votes (vote_key v)) ∧
      res.confidence = cSum votes res.prediction / wSum votes res.prediction := by
  have hpcne : votes.foldl addVote [] ≠ [] := by
    cases votes with
    | nil => exact absurd rfl hne
    | cons v vs =>
      rw [List.foldl_cons]
      exact foldl_addVote_ne_nil vs (addVote [] v) (addVote_ne_nil [] v)
  obtain ⟨x, xs, hxxs⟩ : ∃ x xs, votes.foldl addVote [] = x :: xs := by
    cases hpce : votes.foldl addVote [] with
    | nil => exact absurd hpce hpcne
    | cons a b => exact ⟨a, b, rfl⟩
  have hkeys : keysOf (x :: xs) = predKeys votes := by
    rw [← hxxs, keys_foldl votes []]
    have hfilter : (predKeys votes).filter
        (fun k => decide (k ∉ keysOf ([] : List (Option Outcome × GroupAcc)))) =
        predKeys votes := by
      apply List.filter_eq_self.mpr
      intro a _
      simp [keysOf]
    rw [hfilter]
    rfl
  have hnd : (keysOf (x :: xs)).Nodup := by
    rw [hkeys]
    exact predKeys_nodup votes
  have hwt : ∀ (k : Option Outcome) (g : GroupAcc), (k, g) ∈ x :: xs →
      g.weight = wSum votes k ∧ g.confidence = cSum votes k := by
    intro k g hm
    have hl := lookupG_of_mem (x :: xs) hnd k g hm
    constructor
    · have h1 := keyWeight_foldl votes [] k
      rw [hxxs] at h1
      simp only [keyWeight] at h1
      rw [hl] at h1
      simpa [lookupG] using h1
    · have h1 := keyConf_foldl votes [] k
      rw [hxxs] at h1
      simp only [keyConf] at h1
      rw [hl] at h1
      simpa [lookupG] using h1
  obtain ⟨m, heq, hmmem, hmax, hfirstmax⟩ :
      ∃ m, xs.foldl pickMax x = m ∧ m ∈ x :: xs ∧
        (∀ z ∈ x :: xs, z.2.weight ≤ m.2.weight) ∧
        (∀ z ∈ x :: xs, z.2.weight = m.2.weight →
          z.1 = m.1 ∨ [m.1, z.1].Sublist (keysOf (x :: xs))) := by
    rcases foldl_pickMax_spec xs x with ⟨heq, hle⟩ | ⟨pre, y, post, hsplit, heq, hlt, hpre, hpost⟩
    · refine ⟨x, heq, List.mem_cons_self x xs, ?_, ?_⟩
      · intro z hz
        rcases List.mem_cons.mp hz with hz | hz
        · rw [hz]
        · exact hle z hz
      · intro z hz _
        rcases List.mem_cons.mp hz with hz | hz
        · exact Or.inl (by rw [hz])
        · refine Or.inr ?_
          have hz1 : z.1 ∈ keysOf xs := List.mem_map_of_mem Prod.fst hz
          show [x.1, z.1].Sublist (x.1 :: keysOf xs)
          exact List.cons_sublist_cons.mpr (List.singleton_sublist.mpr hz1)
    · refine ⟨y, heq, ?_, ?_, ?_⟩
      · rw [hsplit]
        exact List.mem_cons_of_mem x (by simp)
      · intro z hz
        rcases List.mem_cons.mp hz with hz | hz
        · rw [hz]; exact le_of_lt hlt
        · rw [hsplit] at hz
          rcases List.mem_append.mp hz with hz | hz
          · exact le_of_lt (hpre z hz)
          · rcases List.mem_cons.mp hz with hz | hz
            · rw [hz]
            · exact hpost z hz
      · intro z hz hw
        rcases List.mem_cons.mp hz with hz | hz
        · exact absurd hw (by rw [hz]; exact ne_of_lt hlt)
        · rw [hsplit] at hz
          rcases List.mem_append.mp hz with hz | hz
          · exact absurd hw (ne_of_lt (hpre z hz))
          · rcases List.mem_cons.mp hz with hz | hz
            · exact Or.inl (by rw [hz])
            · refine Or.inr ?_
              have hz1 : z.1 ∈ keysOf post := List.mem_map_of_mem Prod.fst hz
              have h1 : [y.1, z.1].Sublist (y.1 :: keysOf post) :=
                List.cons_sublist_cons.mpr (List.singleton_sublist.mpr hz1)
              have h2 : (y.1 :: keysOf post).Sublist
                  ((x.1 :: keysOf pre) ++ y.1 :: keysOf post) :=
                List.sublist_append_right _ _
              have hk : keysOf (x :: xs) = (x.1 :: keysOf pre) ++ y.1 :: keysOf post := by
                rw [hsplit]
                simp [keysOf]
              rw [hk]
              exact h1.trans h2
  have hmpair : ((m.1, m.2) : Option Outcome × GroupAcc) ∈ x :: xs := hmmem
  have hmw := hwt m.1 m.2 hmpair
  refine ⟨{ prediction := m.1, confidence := m.2.confidence / m.2.weight,
            reason := String.intercalate " | " m.2.reasons }, ?_, ?_, ?_, ?_, ?_⟩
  · simp only [aggregate_predictions]
    rw [hxxs]
    simp only [maxByWeight]
    rw [heq]
  · have hm1 : m.1 ∈ keysOf (x :: xs) := List.mem_map_of_mem Prod.fst hmmem
    rw [hkeys] at hm1
    have := (mem_predKeys votes m.1).mp hm1
    obtain ⟨v, hvmem, hveq⟩ := List.mem_map.mp this
    exact ⟨v, hvmem, hveq⟩
  · intro v hvm
    have hkin : vote_key v ∈ keysOf (x :: xs) := by
      rw [hkeys]
      exact (mem_predKeys votes (vote_key v)).mpr (List.mem_map_of_mem vote_key hvm)
    obtain ⟨⟨k2, g⟩, hgm, hfst⟩ := List.mem_map.mp hkin
    simp only at hfst
    subst hfst
    calc wSum votes (vote_key v) = g.weight := (hwt (vote_key v) g hgm).1.symm
      _ ≤ m.2.weight := hmax (vote_key v, g) hgm
      _ = wSum votes m.1 := hmw.1
  · intro v hvm hweq
    have hkin : vote_key v ∈ keysOf (x :: xs) := by
      rw [hkeys]
      exact (mem_predKeys votes (vote_key v)).mpr (List.mem_map_of_mem vote_key hvm)
    obtain ⟨⟨k2, g⟩, hgm, hfst⟩ := List.mem_map.mp hkin
    simp only at hfst
    subst hfst
    have hgw : g.weight = m.2.weight := by
      rw [(hwt (vote_key v) g hgm).1, hweq, hmw.1]
    rcases hfirstmax (vote_key v, g) hgm hgw with h | h
    · simp only at h
      rw [h]
    · rw [hkeys] at h
      exact le_of_lt (predKeys_before votes m.1 (vote_key v) h)
  · simp only
    rw [hmw.1, hmw.2]
theorem aggregate_selects_max_weight_group_witness :
    ∃ res, aggregate_predictions
        [ { method := { prediction := some Outcome.PLAYER, confidence := 90, reason := "q" },
            weight := 0.45 }
        , { method := { prediction := some Outcome.BANKER, confidence := 83, reason := "f" },
            weight := 0.35 } ] = Except.ok res ∧
      (∃ v ∈ [ { method := { prediction := some Outcome.PLAYER, confidence := 90, reason := "q" },
                 weight := (0.45 : ℚ) }
             , { method := { prediction := some Outcome.BANKER, confidence := 83, reason := "f" },
                 weight := 0.35 } ], vote_key v = res.prediction) ∧
      (∀ v ∈ [ { method := { prediction := some Outcome.PLAYER, confidence := 90, reason := "q" },
                 weight := (0.45 : ℚ) }
             , { method := { prediction := some Outcome.BANKER, confidence := 83, reason := "f" },
                 weight := 0.35 } ],
        wSum [ { method := { prediction := some Outcome.PLAYER, confidence := 90, reason := "q" },
                 weight := (0.45 : ℚ) }
             , { method := { prediction := some Outcome.BANKER, confidence := 83, reason := "f" },
                 weight := 0.35 } ] (vote_key v) ≤
        wSum [ { method := { prediction := some Outcome.PLAYER, confidence := 90, reason := "q" },
                 weight := (0.45 : ℚ) }
             , { method := { prediction := some Outcome.BANKER, confidence := 83, reason := "f" },
                 weight := 0.35 } ] res.prediction) ∧
      (∀ v ∈ [ { method := { prediction := some Outcome.PLAYER, confidence := 90, reason := "q" },
                 weight := (0.45 : ℚ) }
             , { method := { prediction := some Outcome.BANKER, confidence := 83, reason := "f" },
                 weight := 0.35 } ],
        wSum [ { method := { prediction := some Outcome.PLAYER, confidence := 90, reason := "q" },
                 weight := (0.45 : ℚ) }
             , { method := { prediction := some Outcome.BANKER, confidence := 83, reason := "f" },
                 weight := 0.35 } ] (vote_key v) =
        wSum [ { method := { prediction := some Outcome.PLAYER, confidence := 90, reason := "q" },
                 weight := (0.45 : ℚ) }
             , { method := { prediction := some Outcome.BANKER, confidence := 83, reason := "f" },
                 weight := 0.35 } ] res.prediction →
        firstIdx [ { method := { prediction := some Outcome.PLAYER, confidence := 90, reason := "q" },
                     weight := (0.45 : ℚ) }
                 , { method := { prediction := some Outcome.BANKER, confidence := 83, reason := "f" },
                     weight := 0.35 } ] res.prediction ≤
        firstIdx [ { method := { prediction := some Outcome.PLAYER, confidence := 90, reason := "q" },
                     weight := (0.45 : ℚ) }
                 , { method := { prediction := some Outcome.BANKER, confidence := 83, reason := "f" },
                     weight := 0.35 } ] (vote_key v)) ∧
      res.confidence =
        cSum [ { method := { prediction := some Outcome.PLAYER, confidence := 90, reason := "q" },
                 weight := (0.45 : ℚ) }
             , { method := { prediction := some Outcome.BANKER, confidence := 83, reason := "f" },
                 weight := 0.35 } ] res.prediction /
        wSum [ { method := { prediction := some Outcome.PLAYER, confidence := 90, reason := "q" },
                 weight := (0.45 : ℚ) }
             , { method := { prediction := some Outcome.BANKER, confidence := 83, reason := "f" },
                 weight := 0.35 } ] res.prediction :=
  aggregate_selects_max_weight_group _ (by simp) (by intro v hv; fin_cases hv <;> rfl)
